import Mathlib

/-!
Shallow embedding of `src/ps-vita-renamer.py` (matching and naming engine).

Strings are modelled through their character lists (`String.data`); the Python
regular-expression character classes are modelled over their ASCII meaning:
`\w` as alphanumeric-or-underscore, `\d` as decimal digit, `\s` as whitespace,
`[A-Z]` as ASCII uppercase.  `re.search` is modelled as trying the pattern at
every start position from the left; the patterns used by the program are
deterministic (no backtracking ambiguity), so a direct matcher per pattern is
faithful.  Filesystem state is modelled as the list of names in the target
directory; `os.rename` replaces the old name by the new one and
`os.path.exists` is membership in that list.  Log-only output is dropped and
the "Missing data" error message is abbreviated to its prefix.
-/

namespace PSVitaRenamer

/-- Word-character class of the regex `\w` (alphanumeric or underscore). -/
def isWordChar (c : Char) : Bool := c.isAlphanum || c == '_'

/-- Character class of the regex `[<>:"/\\|?*]` in `clean_title_name`. -/
def isInvalidChar (c : Char) : Bool :=
  c == '<' || c == '>' || c == ':' || c == '"' || c == '/' || c == '\\' ||
  c == '|' || c == '?' || c == '*'

/-- Character class of the regex `[\w\s\-\.\(\)\[\]]` in `clean_title_name`. -/
def isAllowedChar (c : Char) : Bool :=
  isWordChar c || c.isWhitespace || c == '-' || c == '.' || c == '(' ||
  c == ')' || c == '[' || c == ']'

/-- First substitution of `clean_title_name`: drop the invalid characters. -/
def removeInvalid (l : List Char) : List Char := l.filter (fun c => !isInvalidChar c)

/-- Second substitution of `clean_title_name`: replace every character outside
the allowed class by one space. -/
def replaceSpecial (l : List Char) : List Char :=
  l.map (fun c => if isAllowedChar c then c else ' ')

/-- Third substitution of `clean_title_name` (`re.sub(r'\s+', ' ', s)`): each
maximal whitespace run becomes a single space.  The flag records whether the
previous character was part of a whitespace run. -/
def collapseWsAux : Bool → List Char → List Char
  | _, [] => []
  | prevWs, c :: rest =>
    if c.isWhitespace then
      if prevWs then collapseWsAux true rest else ' ' :: collapseWsAux true rest
    else c :: collapseWsAux false rest

/-- Collapse whitespace runs, starting outside a run. -/
def collapseWs (l : List Char) : List Char := collapseWsAux false l

/-- Python `str.strip()`: drop leading then trailing whitespace. -/
def stripWs (l : List Char) : List Char :=
  List.rdropWhile (fun c => c.isWhitespace) (List.dropWhile (fun c => c.isWhitespace) l)

/-- The full `clean_title_name` pipeline over character lists. -/
def cleanList (l : List Char) : List Char :=
  stripWs (collapseWs (replaceSpecial (removeInvalid l)))

/-- `clean_title_name` from the source (the NameSanitizer). -/
def clean_title_name (title : String) : String := ⟨cleanList title.data⟩

/-- Python `str.strip()` on strings, used on every CSV field. -/
def pyStrip (s : String) : String := ⟨stripWs s.data⟩

/-- Matcher for the pattern `-(PC[SABE]\w{5})[_-]` anchored at the head of the
list; returns the captured group. -/
def matchP1At : List Char → Option (List Char)
  | '-' :: 'P' :: 'C' :: c :: w1 :: w2 :: w3 :: w4 :: w5 :: s :: _ =>
    if (c == 'S' || c == 'A' || c == 'B' || c == 'E') && isWordChar w1 &&
        isWordChar w2 && isWordChar w3 && isWordChar w4 && isWordChar w5 &&
        (s == '_' || s == '-') then
      some ['P', 'C', c, w1, w2, w3, w4, w5]
    else none
  | _ => none

/-- Matcher for `-([A-Z]{4}\d{5})_` anchored at the head (the tail common to
the `UP`/`HP`/`EP`/`JP` patterns after the digit run); returns the capture. -/
def matchIdUnderscore : List Char → Option (List Char)
  | '-' :: a :: b :: c :: d :: e :: f :: g :: h :: i :: '_' :: _ =>
    if a.isUpper && b.isUpper && c.isUpper && d.isUpper && e.isDigit &&
        f.isDigit && g.isDigit && h.isDigit && i.isDigit then
      some [a, b, c, d, e, f, g, h, i]
    else none
  | _ => none

/-- Matcher for `r1 r2 \d+-([A-Z]{4}\d{5})_` anchored at the head, where
`r1 r2` is one of the region prefixes `UP`, `HP`, `EP`, `JP`.  The digit run
is maximal; this agrees with the regex because a shorter run would have to be
followed by `-`, which is not a digit. -/
def matchRegionAt (r1 r2 : Char) : List Char → Option (List Char)
  | a :: b :: rest =>
    if a == r1 && b == r2 then
      match rest with
      | d :: _ =>
        if d.isDigit then matchIdUnderscore (rest.dropWhile (fun c => c.isDigit))
        else none
      | [] => none
    else none
  | _ => none

/-- `re.search`: try the anchored matcher at every start position, leftmost
match wins. -/
def searchOpt (f : List Char → Option (List Char)) : List Char → Option (List Char)
  | [] => f []
  | c :: rest =>
    match f (c :: rest) with
    | some r => some r
    | none => searchOpt f rest

/-- `extract_title_id_from_filename` from the source: the five patterns are
tried in order and the first successful search wins. -/
def extract_title_id_from_filename (filename : String) : Option String :=
  match searchOpt matchP1At filename.data with
  | some r => some ⟨r⟩
  | none =>
    match searchOpt (matchRegionAt 'U' 'P') filename.data with
    | some r => some ⟨r⟩
    | none =>
      match searchOpt (matchRegionAt 'H' 'P') filename.data with
      | some r => some ⟨r⟩
      | none =>
        match searchOpt (matchRegionAt 'E' 'P') filename.data with
        | some r => some ⟨r⟩
        | none =>
          match searchOpt (matchRegionAt 'J' 'P') filename.data with
          | some r => some ⟨r⟩
          | none => none

/-- Character class of `[\d\.]` in the canonical-format pattern. -/
def isDigitDot (c : Char) : Bool := c.isDigit || c == '.'

/-- Literal tail `\]\(axekin\.com\)\.pkg$` of the canonical-format pattern;
`$` matches at the very end or before one final newline. -/
def litSuffixOk : List Char → Bool
  | ']' :: '(' :: 'a' :: 'x' :: 'e' :: 'k' :: 'i' :: 'n' :: '.' :: 'c' :: 'o' ::
      'm' :: ')' :: '.' :: 'p' :: 'k' :: 'g' :: rest => rest.isEmpty || rest == ['\n']
  | _ => false

/-- `[A-Z]{4}\d{5}` followed by the literal tail. -/
def idThenSuffix : List Char → Bool
  | a :: b :: c :: d :: e :: f :: g :: h :: i :: rest =>
    a.isUpper && b.isUpper && c.isUpper && d.isUpper && e.isDigit && f.isDigit &&
    g.isDigit && h.isDigit && i.isDigit && litSuffixOk rest
  | _ => false

/-- `[\d\.]+\]\[` followed by identifier and tail: a nonempty maximal
digit-or-dot run (deterministic, since `]` is outside the class), then on. -/
def versionThen (l : List Char) : Bool :=
  match l with
  | c :: rest =>
    if isDigitDot c then
      match rest.dropWhile isDigitDot with
      | ']' :: '[' :: r => idThenSuffix r
      | _ => false
    else false
  | [] => false

/-- Literal `\[UPDATE` then one `\s` then the version part. -/
def afterUpdateWs : List Char → Bool
  | '[' :: 'U' :: 'P' :: 'D' :: 'A' :: 'T' :: 'E' :: w :: rest =>
    w.isWhitespace && versionThen rest
  | _ => false

/-- One `\s` then `\[UPDATE\s...`: the separator between title and suffix. -/
def sepUpdate : List Char → Bool
  | w :: rest => w.isWhitespace && afterUpdateWs rest
  | [] => false

/-- `.+` (one or more non-newline characters) then the separator and suffix;
existence of a split is what `re.match` with backtracking decides. -/
def dotPlusTail : List Char → Bool
  | [] => false
  | c :: rest => c != '\n' && (sepUpdate rest || dotPlusTail rest)

/-- `is_correctly_formatted` from the source (the FormatValidator):
`re.match(r'.+\s\[UPDATE\s[\d\.]+\]\[[A-Z]{4}\d{5}\]\(axekin\.com\)\.pkg$', f)`. -/
def is_correctly_formatted (filename : String) : Bool := dotPlusTail filename.data

/-- `generate_new_filename` from the source (the NameSynthesizer). -/
def generate_new_filename (title_name version title_id : String) : String :=
  clean_title_name title_name ++ " [UPDATE " ++ version ++ "][" ++ title_id ++
    "](axekin.com).pkg"

/-- One loaded CSV record (the values stored under a filename key). -/
structure GameData where
  title_name : String
  version : String
  media_id : String
deriving DecidableEq

/-- One raw CSV row; a column missing from the file is the empty string
(`row.get(..., '')`). -/
structure CsvRow where
  update_filename : String
  title : String
  update_version : String
  media_id : String

/-- Python dict insertion on an insertion-ordered association list: an
existing key keeps its position and gets the new value, a new key is
appended. -/
def insertRow (m : List (String × GameData)) (k : String) (v : GameData) :
    List (String × GameData) :=
  if m.any (fun p => p.1 == k) then m.map (fun p => if p.1 == k then (k, v) else p)
  else m ++ [(k, v)]

/-- One iteration of the row loop in `load_csv_data`: the row is stored iff
the stripped filename and the stripped media id are both nonempty. -/
def loadStep (m : List (String × GameData)) (row : CsvRow) : List (String × GameData) :=
  let filename := pyStrip row.update_filename
  let media_id := pyStrip row.media_id
  if filename ≠ "" ∧ media_id ≠ "" then
    insertRow m filename ⟨pyStrip row.title, pyStrip row.update_version, media_id⟩
  else m

/-- `load_csv_data` from the source, over the parsed rows (the MetadataIndex). -/
def load_csv_data (rows : List CsvRow) : List (String × GameData) :=
  rows.foldl loadStep []

/-- Python substring test `needle in hay` over character lists. -/
def listContainsSub (needle : List Char) : List Char → Bool
  | [] => needle.isEmpty
  | c :: rest => List.isPrefixOf needle (c :: rest) || listContainsSub needle rest

/-- dict lookup `games_data[filename]` guarded by `filename in games_data`. -/
def lookupGame (gd : List (String × GameData)) (filename : String) : Option GameData :=
  (gd.find? (fun p => p.1 == filename)).map (fun p => p.2)

/-- `filename.lower().endswith('.pkg')`. -/
def endsWithPkg (filename : String) : Bool :=
  List.isPrefixOf (".pkg".data.reverse) ((filename.data.map Char.toLower).reverse)

/-- State threaded through the rename loop: current directory contents plus
the two result lists. -/
structure RenameState where
  dir : List String
  renamed : List String
  errors : List String
deriving DecidableEq

/-- Tail of the loop body in `rename_files` once a record and matched id are
chosen: validate title/version, synthesize the target, check collision
against the live directory, then simulate or perform the rename. -/
def finishFile (dry_run : Bool) (st : RenameState) (filename : String)
    (data : GameData) (title_id : String) : RenameState :=
  if data.title_name = "" ∨ data.version = "" then
    ⟨st.dir, st.renamed, st.errors ++ ["Missing data for " ++ filename]⟩
  else
    let new_filename := generate_new_filename data.title_name data.version title_id
    if st.dir.contains new_filename then
      ⟨st.dir, st.renamed,
        st.errors ++ ["Destination file already exists: " ++ new_filename]⟩
    else if dry_run then
      ⟨st.dir, st.renamed ++ [filename ++ " -> " ++ new_filename], st.errors⟩
    else
      ⟨st.dir.erase filename ++ [new_filename],
        st.renamed ++ [filename ++ " -> " ++ new_filename], st.errors⟩

/-- Loop body of `rename_files` for one directory entry: the `.pkg` filter,
the already-formatted short circuit, exact filename match, else identifier
extraction plus the substring-containment scan of the CSV records. -/
def processFile (gd : List (String × GameData)) (dry_run : Bool)
    (st : RenameState) (filename : String) : RenameState :=
  if !endsWithPkg filename then st
  else if is_correctly_formatted filename then st
  else
    match lookupGame gd filename with
    | some data => finishFile dry_run st filename data data.media_id
    | none =>
      match extract_title_id_from_filename filename with
      | none => ⟨st.dir, st.renamed, st.errors ++ ["Cannot extract Title_ID from: " ++ filename]⟩
      | some title_id =>
        match gd.find? (fun p =>
            p.2.media_id == title_id && listContainsSub p.1.data filename.data) with
        | none => ⟨st.dir, st.renamed, st.errors ++ ["No data found for file: " ++ filename]⟩
        | some p => finishFile dry_run st filename p.2 title_id

/-- The full loop of `rename_files` over the directory listing, starting from
the listing as the directory contents. -/
def runState (rows : List CsvRow) (listing : List String) (dry_run : Bool) :
    RenameState :=
  listing.foldl (processFile (load_csv_data rows) dry_run) ⟨listing, [], []⟩

/-- `rename_files` from the source: returns the renamed list and the error
list.  The directory-existence check is external I/O and the listing is taken
as given. -/
def rename_files (rows : List CsvRow) (listing : List String) (dry_run : Bool) :
    List String × List String :=
  if (load_csv_data rows).isEmpty then ([], ["No data loaded from CSV"])
  else ((runState rows listing dry_run).renamed, (runState rows listing dry_run).errors)

/-- Identifier format of the spec and of the `[A-Z]{4}\d{5}` class used by
patterns 2-5 and the format validator: 4 uppercase letters then 5 digits. -/
def mediaIdShape : List Char → Bool
  | [a, b, c, d, e, f, g, h, i] =>
    a.isUpper && b.isUpper && c.isUpper && d.isUpper && e.isDigit && f.isDigit &&
    g.isDigit && h.isDigit && i.isDigit
  | _ => false

/-- Whitespace-normal character lists: every whitespace character is a plain
space and no two adjacent characters are both whitespace.  This is the state
of a string after the `\s+ -> ' '` substitution of `clean_title_name`. -/
def spacedOk (l : List Char) : Prop :=
  (∀ c ∈ l, c.isWhitespace = true → c = ' ') ∧
  List.Chain' (fun a b => ¬(a.isWhitespace = true ∧ b.isWhitespace = true)) l

end PSVitaRenamer

namespace PSVitaRenamer

/-! Helper lemmas about the rename loop. -/

theorem finishFile_dry_dir (st : RenameState) (filename : String) (data : GameData)
    (title_id : String) : (finishFile true st filename data title_id).dir = st.dir := by
  simp only [finishFile]
  split_ifs <;> rfl

theorem processFile_dry_dir (gd : List (String × GameData)) (st : RenameState)
    (filename : String) : (processFile gd true st filename).dir = st.dir := by
  unfold processFile
  split
  · rfl
  · split
    · rfl
    · split
      · exact finishFile_dry_dir ..
      · split
        · rfl
        · split
          · rfl
          · exact finishFile_dry_dir ..

theorem foldl_dry_dir (gd : List (String × GameData)) (listing : List String) :
    ∀ st : RenameState, (listing.foldl (processFile gd true) st).dir = st.dir := by
  induction listing with
  | nil => intro st; rfl
  | cons f rest ih =>
    intro st
    calc ((f :: rest).foldl (processFile gd true) st).dir
        = (rest.foldl (processFile gd true) (processFile gd true st f)).dir := rfl
      _ = (processFile gd true st f).dir := ih _
      _ = st.dir := processFile_dry_dir ..

end PSVitaRenamer

namespace PSVitaRenamer

/-- C9: a file whose name already satisfies the canonical format is skipped by
the loop body: no rename plan is produced, nothing is renamed, and no error is
recorded, whatever the index, mode and state. -/
theorem canonical_file_skipped (gd : List (String × GameData)) (dry_run : Bool)
    (st : RenameState) (filename : String)
    (h : is_correctly_formatted filename = true) :
    processFile gd dry_run st filename = st := by
  simp [processFile, h]

/-- C9 witness at a concrete canonical filename. -/
theorem canonical_file_skipped_witness :
    is_correctly_formatted "Foo [UPDATE 1.02][PCSB00001](axekin.com).pkg" = true ∧
    processFile [] true ⟨[], [], []⟩ "Foo [UPDATE 1.02][PCSB00001](axekin.com).pkg" =
      ⟨[], [], []⟩ :=
  ⟨by decide,
   canonical_file_skipped [] true ⟨[], [], []⟩
     "Foo [UPDATE 1.02][PCSB00001](axekin.com).pkg" (by decide)⟩

/-- C10: in dry-run mode the run mutates nothing: the directory contents after
the full loop equal the original listing for every table and every listing,
while the returned pair still reports the computed plans and errors. -/
theorem dry_run_preserves_directory (rows : List CsvRow) (listing : List String) :
    (runState rows listing true).dir = listing ∧
    rename_files rows listing true =
      (if (load_csv_data rows).isEmpty then ([], ["No data loaded from CSV"])
       else ((runState rows listing true).renamed, (runState rows listing true).errors)) :=
  ⟨foldl_dry_dir (load_csv_data rows) listing ⟨listing, [], []⟩, rfl⟩

/-- C8: when the candidate filename is an exact key of the loaded index, the
loop body continues with that record and the record's own `media_id` as the
matched identifier; neither identifier extraction nor the substring scan
enters the result. -/
theorem exact_match_short_circuit (gd : List (String × GameData)) (dry_run : Bool)
    (st : RenameState) (filename : String) (data : GameData)
    (h1 : endsWithPkg filename = true)
    (h2 : is_correctly_formatted filename = false)
    (h3 : lookupGame gd filename = some data) :
    processFile gd dry_run st filename = finishFile dry_run st filename data data.media_id := by
  simp [processFile, h1, h2, h3]

/-- C8 witness at a concrete single-record index. -/
theorem exact_match_short_circuit_witness :
    endsWithPkg "A.pkg" = true ∧
    is_correctly_formatted "A.pkg" = false ∧
    lookupGame [("A.pkg", ⟨"Game Two", "1.01", "PCSB00002"⟩)] "A.pkg" =
      some ⟨"Game Two", "1.01", "PCSB00002"⟩ ∧
    processFile [("A.pkg", ⟨"Game Two", "1.01", "PCSB00002"⟩)] true ⟨["A.pkg"], [], []⟩
        "A.pkg" =
      finishFile true ⟨["A.pkg"], [], []⟩ "A.pkg" ⟨"Game Two", "1.01", "PCSB00002"⟩
        "PCSB00002" :=
  ⟨by decide, by decide, by decide,
   exact_match_short_circuit [("A.pkg", ⟨"Game Two", "1.01", "PCSB00002"⟩)] true
     ⟨["A.pkg"], [], []⟩ "A.pkg" ⟨"Game Two", "1.01", "PCSB00002"⟩
     (by decide) (by decide) (by decide)⟩

/-- C1 counterexample: against the single-row index
`{filename: UPDATE.pkg, identifier: PCSB00002, title: Game Two, version: 1.01}`,
the candidate `UPDATE_extra.pkg` does not resolve at all (no extraction rule
matches, so the run reports the extraction failure, not a success), `UPDATE.pkg`
is not even a substring of `UPDATE_extra.pkg`, and `OTHER_PCSB00002.pkg` also
fails with the extraction-failure reason, not with no-record-for-identifier. -/
theorem fallback_candidates_not_extractable :
    extract_title_id_from_filename "UPDATE_extra.pkg" = none ∧
    rename_files [⟨"UPDATE.pkg", "Game Two", "1.01", "PCSB00002"⟩]
        ["UPDATE_extra.pkg"] true =
      ([], ["Cannot extract Title_ID from: UPDATE_extra.pkg"]) ∧
    listContainsSub "UPDATE.pkg".data "UPDATE_extra.pkg".data = false ∧
    extract_title_id_from_filename "OTHER_PCSB00002.pkg" = none ∧
    rename_files [⟨"UPDATE.pkg", "Game Two", "1.01", "PCSB00002"⟩]
        ["OTHER_PCSB00002.pkg"] true =
      ([], ["Cannot extract Title_ID from: OTHER_PCSB00002.pkg"]) := by
  refine ⟨by decide, by decide, by decide, by decide, by decide⟩

/-- C1 amended: with candidates the extractor can handle, the fallback works
as described: `UP0000-PCSB00002_UPDATE.pkg` (extraction yields PCSB00002 and
the registered filename `UPDATE.pkg` is a substring of the candidate) resolves
and is planned for rename, while `UP0000-PCSB00002_OTHER.pkg` (identifier
matches but no substring relation) fails with the no-record reason. -/
theorem fallback_substring_resolution :
    rename_files [⟨"UPDATE.pkg", "Game Two", "1.01", "PCSB00002"⟩]
        ["UP0000-PCSB00002_UPDATE.pkg"] true =
      (["UP0000-PCSB00002_UPDATE.pkg -> Game Two [UPDATE 1.01][PCSB00002](axekin.com).pkg"],
        []) ∧
    extract_title_id_from_filename "UP0000-PCSB00002_UPDATE.pkg" = some "PCSB00002" ∧
    listContainsSub "UPDATE.pkg".data "UP0000-PCSB00002_UPDATE.pkg".data = true ∧
    rename_files [⟨"UPDATE.pkg", "Game Two", "1.01", "PCSB00002"⟩]
        ["UP0000-PCSB00002_OTHER.pkg"] true =
      ([], ["No data found for file: UP0000-PCSB00002_OTHER.pkg"]) ∧
    extract_title_id_from_filename "UP0000-PCSB00002_OTHER.pkg" = some "PCSB00002" := by
  refine ⟨by decide, by decide, by decide, by decide, by decide⟩

/-- C2 counterexample: on `EP9000-PCSB00001_00-0000000000000000-A0102-V0100.pkg`
the first pattern `-(PC[SABE]\w{5})[_-]` finds no match anywhere (after
`-PCSB0000` the next character is `1`, not `_` or `-`), so rule 1 is not the
rule that fires. -/
theorem rule1_no_match_on_ep_filename :
    searchOpt matchP1At
      "EP9000-PCSB00001_00-0000000000000000-A0102-V0100.pkg".data = none := by
  decide

/-- C2 amended: the extractor does return PCSB00001 on that filename, but via
rule 4 (the `EP` pattern): rules 1, 2 and 3 all fail on it. -/
theorem ep_filename_extracts_via_rule4 :
    extract_title_id_from_filename
        "EP9000-PCSB00001_00-0000000000000000-A0102-V0100.pkg" = some "PCSB00001" ∧
    searchOpt matchP1At
        "EP9000-PCSB00001_00-0000000000000000-A0102-V0100.pkg".data = none ∧
    searchOpt (matchRegionAt 'U' 'P')
        "EP9000-PCSB00001_00-0000000000000000-A0102-V0100.pkg".data = none ∧
    searchOpt (matchRegionAt 'H' 'P')
        "EP9000-PCSB00001_00-0000000000000000-A0102-V0100.pkg".data = none ∧
    searchOpt (matchRegionAt 'E' 'P')
        "EP9000-PCSB00001_00-0000000000000000-A0102-V0100.pkg".data =
      some "PCSB00001".data := by
  refine ⟨by decide, by decide, by decide, by decide, by decide⟩

/-- C3 counterexample: in dry-run mode nothing is simulated as applied to the
directory, so two candidates synthesizing the identical target are both
reported as planned renames and no DestinationExists error is recorded. -/
theorem dry_run_duplicate_targets_both_reported :
    rename_files [⟨"A.pkg", "Game Two", "1.01", "PCSB00002"⟩]
        ["A.pkg", "UP0-PCSB00002_A.pkg"] true =
      (["A.pkg -> Game Two [UPDATE 1.01][PCSB00002](axekin.com).pkg",
        "UP0-PCSB00002_A.pkg -> Game Two [UPDATE 1.01][PCSB00002](axekin.com).pkg"],
        []) := by
  decide

/-- C3 amended: in real mode (dry_run false) the property holds: applying the
first file's plan puts the target name into the directory, and any later file
resolving to the same target is reported as a DestinationExists error with the
directory and renamed list untouched. -/
theorem destination_exists_after_real_rename (st stB : RenameState)
    (f g target : String) (data dataB : GameData) (tid tidB : String)
    (hT : generate_new_filename data.title_name data.version tid = target)
    (ht1 : data.title_name ≠ "") (ht2 : data.version ≠ "")
    (hnew : st.dir.contains target = false)
    (hTB : generate_new_filename dataB.title_name dataB.version tidB = target)
    (htB1 : dataB.title_name ≠ "") (htB2 : dataB.version ≠ "")
    (hmem : stB.dir.contains target = true) :
    finishFile false st f data tid =
      ⟨st.dir.erase f ++ [target], st.renamed ++ [f ++ " -> " ++ target], st.errors⟩ ∧
    finishFile false stB g dataB tidB =
      ⟨stB.dir, stB.renamed, stB.errors ++ ["Destination file already exists: " ++ target]⟩ := by
  have hnew2 : target ∉ st.dir := by simpa using hnew
  have hmem2 : target ∈ stB.dir := by simpa using hmem
  constructor
  · simp [finishFile, ht1, ht2, hT, hnew2]
  · simp [finishFile, htB1, htB2, hTB, hmem2]

/-- C3 amended, witness: the concrete duplicate-target pair run in real mode. -/
theorem destination_exists_after_real_rename_witness :
    generate_new_filename "Game Two" "1.01" "PCSB00002" =
      "Game Two [UPDATE 1.01][PCSB00002](axekin.com).pkg" ∧
    finishFile false ⟨["A.pkg", "UP0-PCSB00002_A.pkg"], [], []⟩ "A.pkg"
        ⟨"Game Two", "1.01", "PCSB00002"⟩ "PCSB00002" =
      ⟨["UP0-PCSB00002_A.pkg", "Game Two [UPDATE 1.01][PCSB00002](axekin.com).pkg"],
        ["A.pkg -> Game Two [UPDATE 1.01][PCSB00002](axekin.com).pkg"], []⟩ ∧
    finishFile false
        ⟨["UP0-PCSB00002_A.pkg", "Game Two [UPDATE 1.01][PCSB00002](axekin.com).pkg"],
          ["A.pkg -> Game Two [UPDATE 1.01][PCSB00002](axekin.com).pkg"], []⟩
        "UP0-PCSB00002_A.pkg" ⟨"Game Two", "1.01", "PCSB00002"⟩ "PCSB00002" =
      ⟨["UP0-PCSB00002_A.pkg", "Game Two [UPDATE 1.01][PCSB00002](axekin.com).pkg"],
        ["A.pkg -> Game Two [UPDATE 1.01][PCSB00002](axekin.com).pkg"],
        ["Destination file already exists: Game Two [UPDATE 1.01][PCSB00002](axekin.com).pkg"]⟩ := by
  have h := destination_exists_after_real_rename
    ⟨["A.pkg", "UP0-PCSB00002_A.pkg"], [], []⟩
    ⟨["UP0-PCSB00002_A.pkg", "Game Two [UPDATE 1.01][PCSB00002](axekin.com).pkg"],
      ["A.pkg -> Game Two [UPDATE 1.01][PCSB00002](axekin.com).pkg"], []⟩
    "A.pkg" "UP0-PCSB00002_A.pkg"
    "Game Two [UPDATE 1.01][PCSB00002](axekin.com).pkg"
    ⟨"Game Two", "1.01", "PCSB00002"⟩ ⟨"Game Two", "1.01", "PCSB00002"⟩
    "PCSB00002" "PCSB00002"
    (by decide) (by decide) (by decide) (by decide) (by decide) (by decide)
    (by decide) (by decide)
  exact ⟨by decide, h.1.trans (by decide), h.2⟩

/-- C6 counterexample: a row whose title and version fields are both missing
(empty) but whose filename and identifier are present is loaded into the
index, contradicting the claim that such a row is skipped. -/
theorem row_missing_title_still_loaded :
    load_csv_data [⟨"f.pkg", "", "", "PCSB00001"⟩] =
      [("f.pkg", ⟨"", "", "PCSB00001"⟩)] := by
  decide

/-- C6 amended: during load a row is skipped exactly when its stripped
filename or its stripped identifier is empty — such a row leaves the
accumulated index unchanged instead of failing the load — while any row with
both fields nonempty enters the index under its stripped filename, whatever
its title and version. -/
theorem load_skips_only_filename_or_id (m : List (String × GameData)) (row : CsvRow) :
    (pyStrip row.update_filename = "" ∨ pyStrip row.media_id = "" →
      loadStep m row = m) ∧
    (pyStrip row.update_filename ≠ "" → pyStrip row.media_id ≠ "" →
      (loadStep m row).any (fun p => p.1 == pyStrip row.update_filename) = true) := by
  constructor
  · intro h
    simp only [loadStep]
    rw [if_neg]
    rcases h with h | h <;> simp [h]
  · intro h1 h2
    simp only [loadStep]
    rw [if_pos ⟨h1, h2⟩]
    unfold insertRow
    split
    · next hany =>
      rw [List.any_map]
      rw [List.any_eq_true] at hany ⊢
      obtain ⟨p, hp, hpk⟩ := hany
      refine ⟨p, hp, ?_⟩
      simp only [Function.comp_apply, hpk]
      simp
    · simp [List.any_append]

/-- C6 amended, witness: a whitespace-only filename row is dropped; a row with
empty title and version is stored under its filename key. -/
theorem load_skips_only_filename_or_id_witness :
    loadStep [] ⟨" ", "Game", "1.0", "PCSB00001"⟩ = [] ∧
    (loadStep [] ⟨"f.pkg", "", "", "PCSB00001"⟩).any
      (fun p => p.1 == pyStrip "f.pkg") = true :=
  ⟨(load_skips_only_filename_or_id [] ⟨" ", "Game", "1.0", "PCSB00001"⟩).1
      (Or.inl (by decide)),
   (load_skips_only_filename_or_id [] ⟨"f.pkg", "", "", "PCSB00001"⟩).2
      (by decide) (by decide)⟩

end PSVitaRenamer

namespace PSVitaRenamer

theorem matchP1At_length (l r : List Char) (h : matchP1At l = some r) :
    r.length = 8 := by
  unfold matchP1At at h
  split at h
  · split at h
    · injection h with h2
      subst h2
      rfl
    · exact absurd h (by simp)
  · exact absurd h (by simp)

theorem searchOpt_length (f : List Char → Option (List Char))
    (hf : ∀ l r, f l = some r → r.length = 8) :
    ∀ l r, searchOpt f l = some r → r.length = 8 := by
  intro l
  induction l with
  | nil => intro r h; exact hf [] r h
  | cons c rest ih =>
    intro r h
    unfold searchOpt at h
    cases hm : f (c :: rest) with
    | some rx =>
      rw [hm] at h
      injection h with h2
      subst h2
      exact hf _ rx hm
    | none =>
      rw [hm] at h
      exact ih r h

theorem mediaIdShape_length (r : List Char) (h : mediaIdShape r = true) :
    r.length = 9 := by
  unfold mediaIdShape at h
  split at h
  · simp_all
  · exact absurd h (by simp)

/-- C4: every capture of the extractor's first rule is exactly 8 characters
long, hence never of the 4-letters-plus-5-digits identifier shape, and hence
the fallback scan over an index whose records all carry well-formed
identifiers finds nothing for a rule-1 extraction. -/
theorem rule1_capture_shape (s : String) (r : List Char)
    (h : searchOpt matchP1At s.data = some r) :
    r.length = 8 ∧ mediaIdShape r = false ∧
      ∀ gd : List (String × GameData),
        (∀ p ∈ gd, mediaIdShape p.2.media_id.data = true) →
        gd.find? (fun p => p.2.media_id == String.mk r &&
          listContainsSub p.1.data s.data) = none := by
  have h8 : r.length = 8 := searchOpt_length matchP1At matchP1At_length s.data r h
  have hshape : mediaIdShape r = false := by
    cases hx : mediaIdShape r with
    | false => rfl
    | true =>
      have h9 := mediaIdShape_length r hx
      rw [h8] at h9
      exact absurd h9 (by decide)
  refine ⟨h8, hshape, ?_⟩
  intro gd hgd
  rw [List.find?_eq_none]
  intro p hp hpx
  have hbeq : (p.2.media_id == String.mk r) = true := (Bool.and_eq_true _ _).mp hpx |>.1
  have heq : p.2.media_id = String.mk r := eq_of_beq hbeq
  have hm := hgd p hp
  rw [heq] at hm
  rw [show (String.mk r).data = r from rfl, hshape] at hm
  exact Bool.false_ne_true hm

/-- C4 witness: a concrete filename matched by rule 1, and a concrete
well-formed index on which the fallback scan with that capture is empty. -/
theorem rule1_capture_shape_witness :
    searchOpt matchP1At "-PCSA0000_x".data =
      some ['P', 'C', 'S', 'A', '0', '0', '0', '0'] ∧
    ['P', 'C', 'S', 'A', '0', '0', '0', '0'].length = 8 ∧
    mediaIdShape ['P', 'C', 'S', 'A', '0', '0', '0', '0'] = false ∧
    ([("UPDATE.pkg", (⟨"Game Two", "1.01", "PCSB00002"⟩ : GameData))].find?
      (fun p => p.2.media_id == String.mk ['P', 'C', 'S', 'A', '0', '0', '0', '0'] &&
        listContainsSub p.1.data "-PCSA0000_x".data)) = none := by
  have h := rule1_capture_shape "-PCSA0000_x" ['P', 'C', 'S', 'A', '0', '0', '0', '0']
    (by decide)
  exact ⟨by decide, h.1, h.2.1,
    h.2.2 [("UPDATE.pkg", ⟨"Game Two", "1.01", "PCSB00002"⟩)] (by decide)⟩

end PSVitaRenamer

namespace PSVitaRenamer

/-! Sanitizer lemmas towards idempotence. -/

theorem collapseWsAux_mem (b : Bool) (l : List Char) (c : Char) :
    c ∈ collapseWsAux b l → c = ' ' ∨ c ∈ l := by
  induction l generalizing b with
  | nil => intro h; simp [collapseWsAux] at h
  | cons d rest ih =>
    intro h
    by_cases hd : d.isWhitespace = true
    · cases b with
      | true =>
        simp only [collapseWsAux, hd, if_true] at h
        rcases ih true h with h2 | h2
        · exact Or.inl h2
        · exact Or.inr (List.mem_cons_of_mem d h2)
      | false =>
        simp only [collapseWsAux, hd, if_true] at h
        rcases List.mem_cons.mp h with h1 | h1
        · exact Or.inl h1
        · rcases ih true h1 with h2 | h2
          · exact Or.inl h2
          · exact Or.inr (List.mem_cons_of_mem d h2)
    · simp only [collapseWsAux, hd, if_false] at h
      rcases List.mem_cons.mp h with h1 | h1
      · exact Or.inr (h1 ▸ List.mem_cons_self d rest)
      · rcases ih false h1 with h2 | h2
        · exact Or.inl h2
        · exact Or.inr (List.mem_cons_of_mem d h2)

theorem collapseWsAux_ws_space (b : Bool) (l : List Char) (c : Char) :
    c ∈ collapseWsAux b l → c.isWhitespace = true → c = ' ' := by
  induction l generalizing b with
  | nil => intro h; simp [collapseWsAux] at h
  | cons d rest ih =>
    intro h hw
    by_cases hd : d.isWhitespace = true
    · cases b with
      | true =>
        simp only [collapseWsAux, hd, if_true] at h
        exact ih true h hw
      | false =>
        simp only [collapseWsAux, hd, if_true] at h
        rcases List.mem_cons.mp h with h1 | h1
        · exact h1
        · exact ih true h1 hw
    · simp only [collapseWsAux, hd, if_false] at h
      rcases List.mem_cons.mp h with h1 | h1
      · rw [h1] at hw; exact absurd hw (by simp [hd])
      · exact ih false h1 hw

theorem collapseWsAux_true_head (l : List Char) (x : Char) :
    (collapseWsAux true l).head? = some x → x.isWhitespace = false := by
  induction l with
  | nil => intro h; simp [collapseWsAux] at h
  | cons d rest ih =>
    intro h
    by_cases hd : d.isWhitespace = true
    · simp only [collapseWsAux, hd, if_true] at h
      exact ih h
    · simp only [collapseWsAux, hd, if_false, List.head?_cons] at h
      injection h with h2
      subst h2
      exact Bool.not_eq_true _ ▸ hd

theorem collapseWsAux_cons_ws_true (d : Char) (rest : List Char)
    (hd : d.isWhitespace = true) :
    collapseWsAux true (d :: rest) = collapseWsAux true rest := by
  simp [collapseWsAux, hd]

theorem collapseWsAux_cons_ws_false (d : Char) (rest : List Char)
    (hd : d.isWhitespace = true) :
    collapseWsAux false (d :: rest) = ' ' :: collapseWsAux true rest := by
  simp [collapseWsAux, hd]

theorem collapseWsAux_cons_nws (b : Bool) (d : Char) (rest : List Char)
    (hd : d.isWhitespace = false) :
    collapseWsAux b (d :: rest) = d :: collapseWsAux false rest := by
  cases b <;> simp [collapseWsAux, hd]

theorem collapseWsAux_chain (b : Bool) (l : List Char) :
    List.Chain' (fun a c => ¬(a.isWhitespace = true ∧ c.isWhitespace = true))
      (collapseWsAux b l) := by
  induction l generalizing b with
  | nil => simp [collapseWsAux]
  | cons d rest ih =>
    by_cases hd : d.isWhitespace = true
    · cases b with
      | true =>
        rw [collapseWsAux_cons_ws_true d rest hd]
        exact ih true
      | false =>
        rw [collapseWsAux_cons_ws_false d rest hd, List.chain'_cons']
        refine ⟨?_, ih true⟩
        intro y hy hcon
        have hf := collapseWsAux_true_head rest y hy
        rw [hf] at hcon
        exact Bool.false_ne_true hcon.2
    · have hd2 : d.isWhitespace = false := by
        revert hd; cases d.isWhitespace <;> simp
      rw [collapseWsAux_cons_nws b d rest hd2, List.chain'_cons']
      refine ⟨?_, ih false⟩
      intro y hy hcon
      exact hd hcon.1

theorem collapseWsAux_true_eq (l : List Char)
    (h : ∀ x, l.head? = some x → x.isWhitespace = false) :
    collapseWsAux true l = collapseWsAux false l := by
  cases l with
  | nil => rfl
  | cons d rest =>
    have hd := h d rfl
    simp [collapseWsAux, hd]

theorem collapseWs_fix : ∀ l : List Char, spacedOk l → collapseWs l = l := by
  intro l
  induction l with
  | nil => intro _; rfl
  | cons d rest ih =>
    intro h
    obtain ⟨hmem, hchain⟩ := h
    rw [List.chain'_cons'] at hchain
    obtain ⟨hhead, htail⟩ := hchain
    have hrest : spacedOk rest :=
      ⟨fun c hc => hmem c (List.mem_cons_of_mem d hc), htail⟩
    have ihr : collapseWsAux false rest = rest := ih hrest
    by_cases hd : d.isWhitespace = true
    · have hds : d = ' ' := hmem d (List.mem_cons_self d rest) hd
      have hxx : collapseWsAux true rest = collapseWsAux false rest := by
        apply collapseWsAux_true_eq
        intro x hx
        cases hxw : x.isWhitespace with
        | false => rfl
        | true => exact absurd ⟨hd, hxw⟩ (hhead x hx)
      show collapseWsAux false (d :: rest) = d :: rest
      calc collapseWsAux false (d :: rest)
          = ' ' :: collapseWsAux true rest := by simp [collapseWsAux, hd]
        _ = ' ' :: collapseWsAux false rest := by rw [hxx]
        _ = ' ' :: rest := by rw [ihr]
        _ = d :: rest := by rw [hds]
    · show collapseWsAux false (d :: rest) = d :: rest
      calc collapseWsAux false (d :: rest)
          = d :: collapseWsAux false rest := by simp [collapseWsAux, hd]
        _ = d :: rest := by rw [ihr]

theorem mem_of_mem_stripWs (l : List Char) (c : Char) (h : c ∈ stripWs l) :
    c ∈ l := by
  unfold stripWs at h
  have hpf := List.rdropWhile_prefix (fun c : Char => c.isWhitespace)
    (List.dropWhile (fun c : Char => c.isWhitespace) l)
  have h1 : c ∈ List.dropWhile (fun c => c.isWhitespace) l :=
    hpf.sublist.mem h
  exact (List.dropWhile_suffix _).sublist.mem h1

theorem stripWs_spacedOk (l : List Char) (h : spacedOk l) : spacedOk (stripWs l) := by
  obtain ⟨hmem, hchain⟩ := h
  constructor
  · intro c hc hw
    exact hmem c (mem_of_mem_stripWs l c hc) hw
  · unfold stripWs
    have hpf := List.rdropWhile_prefix (fun c : Char => c.isWhitespace)
      (List.dropWhile (fun c : Char => c.isWhitespace) l)
    exact List.Chain'.prefix (hchain.suffix (List.dropWhile_suffix _)) hpf

theorem dropWhile_head_false (p : Char → Bool) (l : List Char) (c : Char)
    (w : List Char) (h : List.dropWhile p l = c :: w) : p c = false := by
  induction l with
  | nil => simp [List.dropWhile] at h
  | cons d rest ih =>
    rw [List.dropWhile_cons] at h
    by_cases hd : p d = true
    · rw [if_pos hd] at h
      exact ih h
    · rw [if_neg hd] at h
      injection h with h1 _
      rw [← h1]
      exact Bool.not_eq_true _ ▸ hd

theorem stripWs_idem (l : List Char) : stripWs (stripWs l) = stripWs l := by
  unfold stripWs
  have key : List.dropWhile (fun c => c.isWhitespace)
      (List.rdropWhile (fun c => c.isWhitespace)
        (List.dropWhile (fun c => c.isWhitespace) l)) =
      List.rdropWhile (fun c => c.isWhitespace)
        (List.dropWhile (fun c => c.isWhitespace) l) := by
    cases hy : List.rdropWhile (fun c => c.isWhitespace)
        (List.dropWhile (fun c => c.isWhitespace) l) with
    | nil => simp
    | cons c ys =>
      have hpre := List.rdropWhile_prefix (fun c : Char => c.isWhitespace)
        (List.dropWhile (fun c => c.isWhitespace) l)
      rw [hy] at hpre
      obtain ⟨t, ht⟩ := hpre
      have hc : c.isWhitespace = false :=
        dropWhile_head_false _ l c (ys ++ t) (by rw [← ht]; simp)
      rw [List.dropWhile_cons, hc]
      simp
  rw [key, List.rdropWhile_idempotent]

theorem replaceSpecial_allowed (l : List Char) (c : Char) (h : c ∈ replaceSpecial l) :
    isAllowedChar c = true := by
  unfold replaceSpecial at h
  rw [List.mem_map] at h
  obtain ⟨a, _, ha⟩ := h
  by_cases hA : isAllowedChar a = true
  · rw [if_pos hA] at ha
    rw [← ha]
    exact hA
  · rw [if_neg hA] at ha
    rw [← ha]
    decide

theorem cleanList_allowed (l : List Char) (c : Char) (h : c ∈ cleanList l) :
    isAllowedChar c = true := by
  unfold cleanList at h
  have h1 := mem_of_mem_stripWs _ c h
  rcases collapseWsAux_mem false _ c h1 with h2 | h2
  · subst h2; decide
  · exact replaceSpecial_allowed _ c h2

theorem cleanList_spacedOk (l : List Char) : spacedOk (cleanList l) := by
  unfold cleanList
  apply stripWs_spacedOk
  exact ⟨fun c hc => collapseWsAux_ws_space false _ c hc, collapseWsAux_chain false _⟩

theorem invalid_not_allowed (c : Char) (h : isInvalidChar c = true) :
    isAllowedChar c = false := by
  unfold isInvalidChar at h
  simp only [Bool.or_eq_true, beq_iff_eq] at h
  rcases h with ((((((((h | h) | h) | h) | h) | h) | h) | h) | h) <;> subst h <;> decide

theorem cleanList_idem (l : List Char) : cleanList (cleanList l) = cleanList l := by
  have hsp : spacedOk (cleanList l) := cleanList_spacedOk l
  have hr : removeInvalid (cleanList l) = cleanList l := by
    unfold removeInvalid
    rw [List.filter_eq_self]
    intro a ha
    cases hI : isInvalidChar a with
    | false => rfl
    | true =>
      have := cleanList_allowed l a ha
      rw [invalid_not_allowed a hI] at this
      exact absurd this (by decide)
  have hrep : replaceSpecial (cleanList l) = cleanList l := by
    unfold replaceSpecial
    have hpt : ∀ a ∈ cleanList l, (if isAllowedChar a then a else ' ') = a := by
      intro a ha
      rw [if_pos (cleanList_allowed l a ha)]
    calc (cleanList l).map _ = (cleanList l).map id := List.map_congr_left hpt
      _ = cleanList l := List.map_id _
  have hcol : collapseWs (cleanList l) = cleanList l := collapseWs_fix _ hsp
  have hstr : stripWs (cleanList l) = cleanList l := by
    show stripWs (stripWs (collapseWs (replaceSpecial (removeInvalid l)))) = _
    exact stripWs_idem _
  show stripWs (collapseWs (replaceSpecial (removeInvalid (cleanList l)))) = cleanList l
  rw [hr, hrep, hcol, hstr]

/-- C7: the sanitizer is idempotent — cleaning a cleaned title changes
nothing, for every input string. -/
theorem clean_title_name_idempotent (x : String) :
    clean_title_name (clean_title_name x) = clean_title_name x :=
  congrArg String.mk (cleanList_idem x.data)

end PSVitaRenamer

namespace PSVitaRenamer

/-! Round-trip lemmas: synthesized names satisfy the format validator. -/

theorem cleanList_no_newline (l : List Char) (c : Char) (h : c ∈ cleanList l) :
    (c != '\n') = true := by
  by_cases hc : c = '\n'
  · subst hc
    have := (cleanList_spacedOk l).1 '\n' h (by decide)
    exact absurd this (by decide)
  · exact bne_iff_ne.mpr hc

theorem dotPlusTail_append (p q : List Char) (hne : p ≠ [])
    (hnl : ∀ c ∈ p, (c != '\n') = true) (hq : sepUpdate q = true) :
    dotPlusTail (p ++ q) = true := by
  induction p with
  | nil => exact absurd rfl hne
  | cons c p2 ih =>
    have hc := hnl c (List.mem_cons_self c p2)
    rw [List.cons_append]
    show ((c != '\n') && (sepUpdate (p2 ++ q) || dotPlusTail (p2 ++ q))) = true
    rw [hc, Bool.true_and]
    cases p2 with
    | nil =>
      rw [List.nil_append, hq, Bool.true_or]
    | cons d p3 =>
      have hrec := ih (by simp) (fun x hx => hnl x (List.mem_cons_of_mem c hx))
      rw [hrec, Bool.or_true]

theorem dropWhile_append_all (p : Char → Bool) (a b : List Char)
    (h : ∀ c ∈ a, p c = true) :
    List.dropWhile p (a ++ b) = List.dropWhile p b := by
  induction a with
  | nil => rfl
  | cons c a2 ih =>
    rw [List.cons_append, List.dropWhile_cons, if_pos (h c (List.mem_cons_self c a2))]
    exact ih (fun x hx => h x (List.mem_cons_of_mem c hx))

theorem versionThen_cons_pos (v : Char) (rest : List Char) (hv : isDigitDot v = true) :
    versionThen (v :: rest) =
      (match rest.dropWhile isDigitDot with
       | ']' :: '[' :: r => idThenSuffix r
       | _ => false) := by
  simp [versionThen, hv]

theorem versionThen_canonical (V r : List Char) (hne : V ≠ [])
    (hvc : ∀ c ∈ V, isDigitDot c = true) (hr : idThenSuffix r = true) :
    versionThen (V ++ ']' :: '[' :: r) = true := by
  cases V with
  | nil => exact absurd rfl hne
  | cons v vs =>
    have hv := hvc v (List.mem_cons_self v vs)
    rw [List.cons_append, versionThen_cons_pos v _ hv]
    rw [dropWhile_append_all isDigitDot vs _ (fun x hx => hvc x (List.mem_cons_of_mem v hx))]
    rw [List.dropWhile_cons, if_neg (by decide)]
    exact hr

theorem idThenSuffix_canonical (I : List Char) (hI : mediaIdShape I = true) :
    idThenSuffix (I ++ [']', '(', 'a', 'x', 'e', 'k', 'i', 'n', '.', 'c', 'o', 'm',
      ')', '.', 'p', 'k', 'g']) = true := by
  unfold mediaIdShape at hI
  split at hI
  · rename_i a b c d e f g h i
    simp only [List.cons_append, List.nil_append]
    show (a.isUpper && b.isUpper && c.isUpper && d.isUpper && e.isDigit &&
      f.isDigit && g.isDigit && h.isDigit && i.isDigit &&
      litSuffixOk [']', '(', 'a', 'x', 'e', 'k', 'i', 'n', '.', 'c', 'o', 'm',
        ')', '.', 'p', 'k', 'g']) = true
    rw [hI]
    decide
  · exact absurd hI Bool.false_ne_true

theorem sepUpdate_canonical (V r : List Char) (hne : V ≠ [])
    (hvc : ∀ c ∈ V, isDigitDot c = true) (hr : idThenSuffix r = true) :
    sepUpdate (' ' :: '[' :: 'U' :: 'P' :: 'D' :: 'A' :: 'T' :: 'E' :: ' ' ::
      (V ++ ']' :: '[' :: r)) = true := by
  show (' '.isWhitespace &&
    (' '.isWhitespace && versionThen (V ++ ']' :: '[' :: r))) = true
  rw [versionThen_canonical V r hne hvc hr]
  decide

/-- C5: the canonical grammar round-trips — for every title whose sanitized
form is nonempty, every nonempty version made of digits and dots, and every
identifier of 4 uppercase letters then 5 digits, the synthesized filename is
accepted by the format validator. -/
theorem synthesize_round_trip (title version : String) (a b c d e f g h i : Char)
    (ht : clean_title_name title ≠ "")
    (hv : version ≠ "")
    (hvc : ∀ ch ∈ version.data, isDigitDot ch = true)
    (hid : mediaIdShape [a, b, c, d, e, f, g, h, i] = true) :
    is_correctly_formatted
      (generate_new_filename title version (String.mk [a, b, c, d, e, f, g, h, i])) = true := by
  have hne : cleanList title.data ≠ [] := by
    intro heq
    apply ht
    show String.mk (cleanList title.data) = ""
    rw [heq]
  have hvne : version.data ≠ [] := by
    intro heq
    apply hv
    show version = ""
    have hv2 : version = String.mk version.data := rfl
    rw [hv2, heq]
  have hdata : (clean_title_name title ++ " [UPDATE " ++ version ++ "][" ++
      String.mk [a, b, c, d, e, f, g, h, i] ++ "](axekin.com).pkg").data =
      cleanList title.data ++ (' ' :: '[' :: 'U' :: 'P' :: 'D' :: 'A' :: 'T' ::
        'E' :: ' ' :: (version.data ++ ']' :: '[' ::
          ([a, b, c, d, e, f, g, h, i] ++
            [']', '(', 'a', 'x', 'e', 'k', 'i', 'n', '.', 'c', 'o', 'm', ')',
             '.', 'p', 'k', 'g']))) := by
    simp only [String.data_append]
    rw [show (clean_title_name title).data = cleanList title.data from rfl]
    simp [List.append_assoc]
  show dotPlusTail (clean_title_name title ++ " [UPDATE " ++ version ++ "][" ++
    String.mk [a, b, c, d, e, f, g, h, i] ++ "](axekin.com).pkg").data = true
  rw [hdata]
  exact dotPlusTail_append _ _ hne (fun c hc => cleanList_no_newline title.data c hc)
    (sepUpdate_canonical version.data _ hvne hvc (idThenSuffix_canonical _ hid))

/-- C5 witness: the spec's own example title, version and identifier. -/
theorem synthesize_round_trip_witness :
    clean_title_name "Game: Two!" ≠ "" ∧
    ("1.01" : String) ≠ "" ∧
    (∀ ch ∈ ("1.01" : String).data, isDigitDot ch = true) ∧
    mediaIdShape ['P', 'C', 'S', 'B', '0', '0', '0', '0', '2'] = true ∧
    is_correctly_formatted (generate_new_filename "Game: Two!" "1.01"
      (String.mk ['P', 'C', 'S', 'B', '0', '0', '0', '0', '2'])) = true :=
  ⟨by decide, by decide, by decide, by decide,
   synthesize_round_trip "Game: Two!" "1.01" 'P' 'C' 'S' 'B' '0' '0' '0' '0' '2'
     (by decide) (by decide) (by decide) (by decide)⟩

end PSVitaRenamer
